import Mathlib

/-!
Verification development for the flat-seeker listing synchronization and
delivery pipeline.  The definitions below are a shallow embedding of the
repository's code:

* `parse_all_pages` embeds `AruodasParser.parse_all_pages` (src/parser.py,
  lines 144-169; same control flow in src/parser_playwright.py, lines
  250-283).  The page renderer plus field extractor collaborator is
  abstracted as a function `Nat → Option (List Listing)` returning the
  extracted records of a page, `none` signalling a hard failure
  (`_parse_page` returning `None`).
* `send_apt` embeds `send_apt` (src/bot.py, lines 132-172).  The
  notification channel is abstracted as a function from the attempt index
  to the channel's response.
* `deliver_loop` and `cycle` embed the body of one iteration of
  `periodic_parser` (src/bot.py, lines 181-228): load of the published-ids
  file, the `new_apts` checks, the per-listing filter/send/commit loop.
* `scheduler_go` embeds the enclosing `while True` loop with its
  try/except containment and the trailing `asyncio.sleep(POLL_INTERVAL)`.
-/

namespace FlatSeeker

/-- One scraped apartment record, as built by `_parse_apartment`
(src/parser.py, lines 211-255).  Only `id` is consulted by the pipeline;
the display fields are carried along unchanged. -/
structure Listing where
  id : String
  url : Option String
  address : Option String
  distance : Option String
  price : Option String
  price_per_m2 : Option String
  rooms : Option String
  area : Option String
  floor : Option String
  pet_friendly : Bool
  price_change : Option String
deriving DecidableEq, Repr

/-- A listing carrying only an id, used to build concrete test inputs. -/
def mkListing (s : String) : Listing :=
  ⟨s, none, none, none, none, none, none, none, none, false, none⟩

/-- The `if apt["id"] not in seen_ids` body of the in-crawl deduplication
(src/parser.py, lines 160-163): the accumulator pairs the collected
listings with the list of ids seen so far. -/
def dedupStep (p : List Listing × List String) (apt : Listing) :
    List Listing × List String :=
  if apt.id ∈ p.2 then p else (p.1 ++ [apt], p.2 ++ [apt.id])

/-- Folding the dedup step over one page's records. -/
def dedupFold (apts : List Listing) (acc : List Listing) (seen : List String) :
    List Listing × List String :=
  apts.foldl dedupStep (acc, seen)

/-- Keep-first deduplication by id of a flat list of records. -/
def firstSeenDedup (apts : List Listing) : List Listing :=
  (dedupFold apts [] []).1

/-- The records a page contributes to the crawl (empty for a failed page;
only used to state theorems about successful crawls). -/
def pageContent (fetchPage : Nat → Option (List Listing)) (q : Nat) :
    List Listing :=
  (fetchPage q).getD []

/-- The `for page in range(1, max_pages + 1)` loop of `parse_all_pages`
(src/parser.py, lines 149-167), with the remaining page budget as fuel.
Returns the pages fetched, in order, together with the crawl outcome:
`none` on a hard page failure, otherwise the accumulated listings. -/
def crawlFrom (fetchPage : Nat → Option (List Listing)) :
    Nat → Nat → List Listing → List String → List Nat × Option (List Listing)
  | _, 0, acc, _ => ([], some acc)
  | page, fuel + 1, acc, seen =>
    match fetchPage page with
    | none => ([page], none)
    | some [] => ([page], some acc)
    | some (a :: apts) =>
      let p := dedupFold (a :: apts) acc seen
      let r := crawlFrom fetchPage (page + 1) fuel p.1 p.2
      (page :: r.1, r.2)

/-- `AruodasParser.parse_all_pages` (src/parser.py, lines 144-169). -/
def parse_all_pages (fetchPage : Nat → Option (List Listing))
    (max_pages : Nat) : List Nat × Option (List Listing) :=
  crawlFrom fetchPage 1 max_pages [] []

/-- One response of the notification channel to a send attempt
(spec boundary `send(message)`; in src/bot.py these are a normal return,
`TelegramRetryAfter` and `TelegramAPIError`/unknown exceptions). -/
inductive ChannelResp where
  | success
  | rateLimited (retry_after : Nat)
  | permanentFailure
deriving DecidableEq, Repr

/-- The `while retries < max_retries` loop of `send_apt` (src/bot.py,
lines 146-172).  `fuel` is `max_retries - retries`, `attempt` indexes the
channel responses, `waits` accumulates the flood-control sleeps.  On a
rate-limited response the retry counter is bumped first and the cap check
happens before the sleep, exactly as in the source. -/
def send_apt_go (chan : Nat → ChannelResp) :
    Nat → Nat → List Nat → Bool × List Nat
  | 0, _, waits => (false, waits)
  | fuel + 1, attempt, waits =>
    match chan attempt with
    | .success => (true, waits)
    | .permanentFailure => (false, waits)
    | .rateLimited ra =>
      match fuel with
      | 0 => (false, waits)
      | f + 1 => send_apt_go chan (f + 1) (attempt + 1) (waits ++ [ra])

/-- `send_apt` (src/bot.py, lines 132-172): returns whether the send
eventually succeeded together with the rate-limit waits performed. -/
def send_apt (chan : Nat → ChannelResp) (max_retries : Nat) :
    Bool × List Nat :=
  send_apt_go chan max_retries 0 []

/-- The on-disk published-ids snapshot file (`published_ids.json`):
absent, unparseable, or a serialized set of ids. -/
inductive StoreFile where
  | absent
  | corrupt
  | content (ids : Finset String)
deriving DecidableEq

/-- Loading the published-ids file at cycle start (src/bot.py, lines
184-187): an absent file is an empty set, an unparseable file raises
(modelled as `Except.error`). -/
def load : StoreFile → Except Unit (Finset String)
  | .absent => .ok ∅
  | .corrupt => .error ()
  | .content ids => .ok ids

/-- Result of the per-listing delivery loop: final in-memory set, final
disk state, ids for which a send was attempted, ids successfully sent,
and the successive snapshots committed to disk. -/
structure LoopResult where
  published : Finset String
  disk : StoreFile
  attempted : List String
  sent : List String
  commits : List (Finset String)
deriving DecidableEq

/-- The `for apt in new_apts` loop of `periodic_parser` (src/bot.py,
lines 206-220): skip already-published ids, otherwise attempt the send;
on success add the id to the in-memory set and immediately rewrite the
whole snapshot to disk before the next listing. -/
def deliver_loop (chan : String → Nat → ChannelResp) :
    List Listing → Finset String → StoreFile → LoopResult
  | [], pub, disk => ⟨pub, disk, [], [], []⟩
  | apt :: rest, pub, disk =>
    if apt.id ∈ pub then
      deliver_loop chan rest pub disk
    else if (send_apt (chan apt.id) 5).1 then
      let pub2 := insert apt.id pub
      let r := deliver_loop chan rest pub2 (.content pub2)
      ⟨r.published, r.disk, apt.id :: r.attempted, apt.id :: r.sent,
        pub2 :: r.commits⟩
    else
      let r := deliver_loop chan rest pub disk
      ⟨r.published, r.disk, apt.id :: r.attempted, r.sent, r.commits⟩

/-- How one cycle of `periodic_parser` ended: load raised (caught at the
loop boundary), the parser returned `None`, the parser returned no
listings, or the delivery loop ran. -/
inductive CycleOutcome where
  | storeError
  | parserNone
  | noNew
  | ran
deriving DecidableEq, Repr

/-- Observable result of one cycle of `periodic_parser`. -/
structure CycleResult where
  outcome : CycleOutcome
  disk : StoreFile
  attempted : List String
  sent : List String
  commits : List (Finset String)
deriving DecidableEq

/-- The body of one iteration of `periodic_parser` (src/bot.py, lines
182-226): reload the published ids from disk, then dispatch on the crawl
result (`None`, empty, or listings) and run the delivery loop. -/
def cycle (chan : String → Nat → ChannelResp)
    (crawl : Option (List Listing)) (disk : StoreFile) : CycleResult :=
  match load disk with
  | .error _ => ⟨.storeError, disk, [], [], []⟩
  | .ok pub =>
    match crawl with
    | none => ⟨.parserNone, disk, [], [], []⟩
    | some [] => ⟨.noNew, disk, [], [], []⟩
    | some (a :: rest) =>
      let r := deliver_loop chan (a :: rest) pub disk
      ⟨.ran, r.disk, r.attempted, r.sent, r.commits⟩

/-- `POLL_INTERVAL` (src/bot.py, line 30). -/
def POLL_INTERVAL : Nat := 3600

/-- The `while True` scheduler loop of `periodic_parser` (src/bot.py,
lines 181-228) run for `fuel` cycles starting at cycle index `i`: every
cycle completes (exceptions are values of `CycleOutcome`), and each is
followed by a full `POLL_INTERVAL` wait, recorded next to it in the
returned trace. -/
def scheduler_go (chans : Nat → String → Nat → ChannelResp)
    (crawls : Nat → Option (List Listing)) :
    Nat → Nat → StoreFile → StoreFile × List (CycleResult × Nat)
  | _, 0, disk => (disk, [])
  | i, fuel + 1, disk =>
    let r := cycle (chans i) (crawls i) disk
    let rest := scheduler_go chans crawls (i + 1) fuel r.disk
    (rest.1, (r, POLL_INTERVAL) :: rest.2)

/-- Run the scheduler for `n` cycles from the given disk state. -/
def scheduler_run (chans : Nat → String → Nat → ChannelResp)
    (crawls : Nat → Option (List Listing)) (n : Nat) (disk : StoreFile) :
    StoreFile × List (CycleResult × Nat) :=
  scheduler_go chans crawls 0 n disk

/-- The persisted search configuration (src/parser.py, lines 44-55). -/
structure SearchConfig where
  FRadius : Nat
  FAreaOverAllMin : Nat
  FPriceMax : Nat
  detailed_search : Nat
  pet_friendly : Nat
  city : String
  type' : String
  max_pages : Nat
deriving DecidableEq, Repr

/-- The default configuration written by `_load_config` when the file is
missing (src/parser.py, lines 44-55). -/
def defaultSearchConfig : SearchConfig :=
  ⟨5, 60, 1200, 1, 1, "vilniuje", "butu-nuoma", 3⟩

/-- The on-disk configuration file. -/
inductive ConfigFile where
  | absent
  | present (c : SearchConfig)
deriving DecidableEq

/-- `AruodasParser._load_config` (src/parser.py, lines 40-58): when the
file is absent, the default configuration is written to disk and
returned; otherwise the stored configuration is read. -/
def load_config : ConfigFile → SearchConfig × ConfigFile
  | .absent => (defaultSearchConfig, .present defaultSearchConfig)
  | .present c => (c, .present c)

/-! Concrete fixtures used to instantiate the theorems below on closed
inputs. -/

/-- A channel that accepts every message on the first attempt. -/
def chanOK : String → Nat → ChannelResp := fun _ _ => ChannelResp.success

/-- A channel that answers flood control four times, then accepts. -/
def chanRL4 : Nat → ChannelResp :=
  fun i => if i < 4 then ChannelResp.rateLimited 2 else ChannelResp.success

/-- A channel that always answers flood control. -/
def chanRL : Nat → ChannelResp := fun _ => ChannelResp.rateLimited 2

/-- Per-listing view of `chanRL4`. -/
def chanFRL4 : String → Nat → ChannelResp := fun _ => chanRL4

/-- Per-listing view of `chanRL`. -/
def chanFRL : String → Nat → ChannelResp := fun _ => chanRL

/-- Ten distinct listings, the mocked contents of page 1. -/
def tenListings : List Listing :=
  [mkListing "a0", mkListing "a1", mkListing "a2", mkListing "a3",
    mkListing "a4", mkListing "a5", mkListing "a6", mkListing "a7",
    mkListing "a8", mkListing "a9"]

/-- A mocked site: 10 listings on page 1, none on page 2. -/
def fetchStop : Nat → Option (List Listing)
  | 1 => some tenListings
  | _ => some []

/-- A mocked site: one listing on page 1, access denied on page 2. -/
def fetchHard : Nat → Option (List Listing)
  | 1 => some [mkListing "a"]
  | 2 => none
  | _ => some []

/-- A mocked site with a listing repeated across pages 1 and 2. -/
def fetchDup : Nat → Option (List Listing)
  | 1 => some [mkListing "a", mkListing "b"]
  | 2 => some [mkListing "b", mkListing "c"]
  | _ => some []

/-- A crawl result that always signals a hard failure. -/
def crawlsNone : Nat → Option (List Listing) := fun _ => none

/-- A per-cycle channel assignment that always accepts. -/
def chansOK : Nat → String → Nat → ChannelResp := fun _ => chanOK

section DedupLemmas

lemma dedupFold_nil (acc : List Listing) (seen : List String) :
    dedupFold [] acc seen = (acc, seen) := rfl

lemma dedupFold_cons (x : Listing) (xs : List Listing) (acc : List Listing)
    (seen : List String) :
    dedupFold (x :: xs) acc seen =
      dedupFold xs (dedupStep (acc, seen) x).1 (dedupStep (acc, seen) x).2 := by
  simp [dedupFold, List.foldl_cons]

lemma dedupFold_append (xs ys : List Listing) (acc : List Listing)
    (seen : List String) :
    dedupFold (xs ++ ys) acc seen =
      dedupFold ys (dedupFold xs acc seen).1 (dedupFold xs acc seen).2 := by
  simp [dedupFold, List.foldl_append]

/-- Everything the claims need about the keep-first dedup fold: the
accumulator grows by a sublist `ys` of the input whose ids are fresh and
pairwise distinct, no id of the input is lost, and every kept element is
the first element of the input with its id. -/
lemma dedupFold_spec (xs : List Listing) :
    ∀ (acc : List Listing) (seen : List String),
    ∃ ys : List Listing,
      (dedupFold xs acc seen).1 = acc ++ ys ∧
      (dedupFold xs acc seen).2 = seen ++ ys.map Listing.id ∧
      List.Sublist ys xs ∧
      (∀ y ∈ ys, y.id ∉ seen) ∧
      (ys.map Listing.id).Nodup ∧
      (∀ x ∈ xs, x.id ∈ seen ∨ x.id ∈ ys.map Listing.id) ∧
      (∀ y ∈ ys, xs.find? (fun z => z.id == y.id) = some y) := by
  induction xs with
  | nil =>
    intro acc seen
    exact ⟨[], by simp [dedupFold_nil]⟩
  | cons x xs ih =>
    intro acc seen
    by_cases hx : x.id ∈ seen
    · have hstep : dedupFold (x :: xs) acc seen = dedupFold xs acc seen := by
        rw [dedupFold_cons]
        simp [dedupStep, hx]
      obtain ⟨ys, h1, h2, h3, h4, h5, h6, h7⟩ := ih acc seen
      refine ⟨ys, ?_, ?_, h3.cons x, h4, h5, ?_, ?_⟩
      · rw [hstep]; exact h1
      · rw [hstep]; exact h2
      · intro z hz
        rcases List.mem_cons.mp hz with hz | hz
        · exact Or.inl (hz ▸ hx)
        · exact h6 z hz
      · intro y hy
        have hne : (x.id == y.id) = false := by
          have : y.id ≠ x.id := fun h => (h4 y hy) (h ▸ hx)
          simp [Ne.symm this]
        rw [List.find?_cons, hne]
        exact h7 y hy
    · have hstep : dedupFold (x :: xs) acc seen =
          dedupFold xs (acc ++ [x]) (seen ++ [x.id]) := by
        rw [dedupFold_cons]
        simp [dedupStep, hx]
      obtain ⟨ys, h1, h2, h3, h4, h5, h6, h7⟩ := ih (acc ++ [x]) (seen ++ [x.id])
      have hfresh : ∀ y ∈ ys, y.id ≠ x.id := by
        intro y hy h
        exact h4 y hy (by simp [h])
      refine ⟨x :: ys, ?_, ?_, h3.cons₂ x, ?_, ?_, ?_, ?_⟩
      · rw [hstep, h1]; simp
      · rw [hstep, h2]; simp
      · intro y hy
        rcases List.mem_cons.mp hy with hy | hy
        · exact hy ▸ hx
        · intro hmem
          exact h4 y hy (by simp [hmem])
      · simp only [List.map_cons, List.nodup_cons]
        refine ⟨?_, h5⟩
        intro hmem
        obtain ⟨y, hy, hyid⟩ := List.mem_map.mp hmem
        exact hfresh y hy hyid
      · intro z hz
        rcases List.mem_cons.mp hz with hz | hz
        · subst hz; exact Or.inr (by simp)
        · rcases h6 z hz with h | h
          · rcases List.mem_append.mp h with h | h
            · exact Or.inl h
            · simp at h
              exact Or.inr (by simp [h])
          · exact Or.inr (by simp [h])
      · intro y hy
        rcases List.mem_cons.mp hy with hy | hy
        · subst hy
          rw [List.find?_cons]
          simp
        · have hne : (x.id == y.id) = false := by
            have : x.id ≠ y.id := fun h => hfresh y hy h.symm
            simp [this]
          rw [List.find?_cons, hne]
          exact h7 y hy

end DedupLemmas

section CrawlLemmas

/-- A successful crawl computes exactly the keep-first dedup fold over the
concatenated contents of the pages it fetched. -/
lemma crawlFrom_some (fetchPage : Nat → Option (List Listing)) :
    ∀ (fuel page : Nat) (acc : List Listing) (seen : List String)
      (tr : List Nat) (L : List Listing),
      crawlFrom fetchPage page fuel acc seen = (tr, some L) →
      L = (dedupFold (tr.flatMap (pageContent fetchPage)) acc seen).1 := by
  intro fuel
  induction fuel with
  | zero =>
    intro page acc seen tr L h
    simp only [crawlFrom, Prod.mk.injEq] at h
    obtain ⟨htr, hL⟩ := h
    subst htr
    simp [dedupFold_nil] at hL ⊢
    exact hL.symm
  | succ fuel ih =>
    intro page acc seen tr L h
    rcases hfp : fetchPage page with _ | apts
    · rw [crawlFrom, hfp] at h
      simp at h
    · rcases apts with _ | ⟨a, as⟩
      · rw [crawlFrom, hfp] at h
        simp only [Prod.mk.injEq] at h
        obtain ⟨htr, hL⟩ := h
        subst htr
        simp only [Option.some.injEq] at hL
        subst hL
        simp [pageContent, hfp, dedupFold_nil]
      · rw [crawlFrom, hfp] at h
        simp only [Prod.mk.injEq] at h
        obtain ⟨htr, hL⟩ := h
        subst htr
        have := ih (page + 1)
            (dedupFold (a :: as) acc seen).1 (dedupFold (a :: as) acc seen).2
            (crawlFrom fetchPage (page + 1) fuel (dedupFold (a :: as) acc seen).1
              (dedupFold (a :: as) acc seen).2).1 L
        rw [List.flatMap_cons]
        have hpc : pageContent fetchPage page = a :: as := by
          simp [pageContent, hfp]
        rw [hpc, dedupFold_append]
        exact this (by rw [← hL])

/-- The crawl fetches an initial segment of pages `page, page+1, ...` of
length at most its page budget. -/
lemma crawlFrom_trace (fetchPage : Nat → Option (List Listing)) :
    ∀ (fuel page : Nat) (acc : List Listing) (seen : List String),
      ∃ m, m ≤ fuel ∧
        (crawlFrom fetchPage page fuel acc seen).1 = List.range' page m := by
  intro fuel
  induction fuel with
  | zero =>
    intro page acc seen
    exact ⟨0, Nat.le_refl 0, by simp [crawlFrom]⟩
  | succ fuel ih =>
    intro page acc seen
    rcases hfp : fetchPage page with _ | apts
    · exact ⟨1, by omega, by rw [crawlFrom, hfp]; simp [List.range']⟩
    · rcases apts with _ | ⟨a, as⟩
      · exact ⟨1, by omega, by rw [crawlFrom, hfp]; simp [List.range']⟩
      · obtain ⟨m, hm, htr⟩ :=
          ih (page + 1) (dedupFold (a :: as) acc seen).1
            (dedupFold (a :: as) acc seen).2
        refine ⟨m + 1, by omega, ?_⟩
        rw [crawlFrom, hfp]
        simp only
        rw [htr, List.range'_succ]

/-- When the pages before `p` are all nonempty and page `p` yields zero
records, the crawl fetches exactly pages `page..p` and returns the dedup
of the pages before `p`. -/
lemma crawlFrom_stop (fetchPage : Nat → Option (List Listing)) (p : Nat)
    (hp : fetchPage p = some []) :
    ∀ (fuel page : Nat) (acc : List Listing) (seen : List String),
      page ≤ p → p < page + fuel →
      (∀ q, page ≤ q → q < p → ∃ a as, fetchPage q = some (a :: as)) →
      crawlFrom fetchPage page fuel acc seen =
        (List.range' page (p + 1 - page),
          some (dedupFold ((List.range' page (p - page)).flatMap
            (pageContent fetchPage)) acc seen).1) := by
  intro fuel
  induction fuel with
  | zero =>
    intro page acc seen h1 h2 _
    omega
  | succ fuel ih =>
    intro page acc seen h1 h2 hprev
    rcases Nat.eq_or_lt_of_le h1 with heq | hlt
    · subst heq
      rw [crawlFrom, hp]
      have : page + 1 - page = 1 := by omega
      rw [this]
      have : page - page = 0 := by omega
      rw [this]
      simp [List.range', dedupFold_nil]
    · obtain ⟨a, as, hq⟩ := hprev page (Nat.le_refl page) hlt
      rw [crawlFrom, hq]
      simp only
      rw [ih (page + 1) (dedupFold (a :: as) acc seen).1
        (dedupFold (a :: as) acc seen).2 (by omega) (by omega)
        (fun q hq1 hq2 => hprev q (by omega) hq2)]
      have e1 : p + 1 - page = (p + 1 - (page + 1)) + 1 := by omega
      have e2 : p - page = (p - (page + 1)) + 1 := by omega
      rw [e1, e2, List.range'_succ, List.range'_succ]
      have hpc : pageContent fetchPage page = a :: as := by
        simp [pageContent, hq]
      rw [List.flatMap_cons, hpc, dedupFold_append]

/-- When the pages before `p` are all nonempty and page `p` fails hard,
the whole crawl fails. -/
lemma crawlFrom_hard (fetchPage : Nat → Option (List Listing)) (p : Nat)
    (hp : fetchPage p = none) :
    ∀ (fuel page : Nat) (acc : List Listing) (seen : List String),
      page ≤ p → p < page + fuel →
      (∀ q, page ≤ q → q < p → ∃ a as, fetchPage q = some (a :: as)) →
      (crawlFrom fetchPage page fuel acc seen).2 = none := by
  intro fuel
  induction fuel with
  | zero =>
    intro page acc seen h1 h2 _
    omega
  | succ fuel ih =>
    intro page acc seen h1 h2 hprev
    rcases Nat.eq_or_lt_of_le h1 with heq | hlt
    · subst heq
      rw [crawlFrom, hp]
    · obtain ⟨a, as, hq⟩ := hprev page (Nat.le_refl page) hlt
      rw [crawlFrom, hq]
      simp only
      exact ih (page + 1) (dedupFold (a :: as) acc seen).1
        (dedupFold (a :: as) acc seen).2 (by omega) (by omega)
        (fun q hq1 hq2 => hprev q (by omega) hq2)

end CrawlLemmas

section SendLemmas

/-- A send that succeeds on the first attempt performs no rate-limit
wait. -/
lemma send_apt_first_success (chan : Nat → ChannelResp)
    (h : chan 0 = ChannelResp.success) :
    send_apt chan 5 = (true, []) := by
  simp [send_apt, send_apt_go, h]

/-- The retry loop consults the channel only on attempts
`attempt, ..., attempt + fuel - 1`. -/
lemma send_apt_go_congr (chan chan' : Nat → ChannelResp) :
    ∀ (fuel attempt : Nat) (waits : List Nat),
      (∀ i, attempt ≤ i → i < attempt + fuel → chan i = chan' i) →
      send_apt_go chan fuel attempt waits =
        send_apt_go chan' fuel attempt waits := by
  intro fuel
  induction fuel with
  | zero =>
    intro attempt waits _
    rfl
  | succ fuel ih =>
    intro attempt waits hagree
    have h0 : chan attempt = chan' attempt :=
      hagree attempt (Nat.le_refl attempt) (by omega)
    rw [send_apt_go, send_apt_go, h0]
    rcases chan' attempt with _ | ra | _
    · rfl
    · rcases fuel with _ | f
      · rfl
      · exact ih (attempt + 1) (waits ++ [ra])
          (fun i h1 h2 => hagree i (by omega) (by omega))
    · rfl

/-- A send that returns `true` saw the channel answer `success` on some
attempt within the fuel window. -/
lemma send_apt_go_accept (chan : Nat → ChannelResp) :
    ∀ (fuel attempt : Nat) (waits : List Nat),
      (send_apt_go chan fuel attempt waits).1 = true →
      ∃ j, attempt ≤ j ∧ j < attempt + fuel ∧
        chan j = ChannelResp.success := by
  intro fuel
  induction fuel with
  | zero =>
    intro attempt waits h
    simp [send_apt_go] at h
  | succ fuel ih =>
    intro attempt waits h
    rw [send_apt_go] at h
    rcases hc : chan attempt with _ | ra | _ <;> rw [hc] at h
    · exact ⟨attempt, Nat.le_refl attempt, by omega, hc⟩
    · rcases fuel with _ | f
      · simp at h
      · obtain ⟨j, hj1, hj2, hj3⟩ := ih (attempt + 1) (waits ++ [ra]) h
        exact ⟨j, by omega, by omega, hj3⟩
    · simp at h

/-- A successful send was accepted by the channel within the 5-attempt
cap. -/
lemma send_apt_accept (chan : Nat → ChannelResp)
    (h : (send_apt chan 5).1 = true) :
    ∃ j, j < 5 ∧ chan j = ChannelResp.success := by
  obtain ⟨j, _, hj2, hj3⟩ := send_apt_go_accept chan 5 0 [] h
  exact ⟨j, by omega, hj3⟩

end SendLemmas

section DeliverLemmas

lemma deliver_loop_nil (chan : String → Nat → ChannelResp)
    (pub : Finset String) (disk : StoreFile) :
    deliver_loop chan [] pub disk = ⟨pub, disk, [], [], []⟩ := rfl

lemma deliver_loop_skip (chan : String → Nat → ChannelResp) (apt : Listing)
    (rest : List Listing) (pub : Finset String) (disk : StoreFile)
    (h : apt.id ∈ pub) :
    deliver_loop chan (apt :: rest) pub disk =
      deliver_loop chan rest pub disk := by
  simp [deliver_loop, h]

lemma deliver_loop_success (chan : String → Nat → ChannelResp) (apt : Listing)
    (rest : List Listing) (pub : Finset String) (disk : StoreFile)
    (h : apt.id ∉ pub) (hs : (send_apt (chan apt.id) 5).1 = true) :
    deliver_loop chan (apt :: rest) pub disk =
      ⟨(deliver_loop chan rest (insert apt.id pub)
          (.content (insert apt.id pub))).published,
        (deliver_loop chan rest (insert apt.id pub)
          (.content (insert apt.id pub))).disk,
        apt.id :: (deliver_loop chan rest (insert apt.id pub)
          (.content (insert apt.id pub))).attempted,
        apt.id :: (deliver_loop chan rest (insert apt.id pub)
          (.content (insert apt.id pub))).sent,
        insert apt.id pub :: (deliver_loop chan rest (insert apt.id pub)
          (.content (insert apt.id pub))).commits⟩ := by
  simp [deliver_loop, h, hs]

lemma deliver_loop_failure (chan : String → Nat → ChannelResp) (apt : Listing)
    (rest : List Listing) (pub : Finset String) (disk : StoreFile)
    (h : apt.id ∉ pub) (hs : (send_apt (chan apt.id) 5).1 = false) :
    deliver_loop chan (apt :: rest) pub disk =
      ⟨(deliver_loop chan rest pub disk).published,
        (deliver_loop chan rest pub disk).disk,
        apt.id :: (deliver_loop chan rest pub disk).attempted,
        (deliver_loop chan rest pub disk).sent,
        (deliver_loop chan rest pub disk).commits⟩ := by
  simp [deliver_loop, h, hs]

/-- The final in-memory set is the loaded set plus exactly the
successfully sent ids. -/
lemma deliver_loop_published (chan : String → Nat → ChannelResp) :
    ∀ (apts : List Listing) (pub : Finset String) (disk : StoreFile),
      (deliver_loop chan apts pub disk).published =
        pub ∪ (deliver_loop chan apts pub disk).sent.toFinset := by
  intro apts
  induction apts with
  | nil =>
    intro pub disk
    simp [deliver_loop_nil]
  | cons apt rest ih =>
    intro pub disk
    by_cases h : apt.id ∈ pub
    · rw [deliver_loop_skip chan apt rest pub disk h]
      exact ih pub disk
    · rcases hs : (send_apt (chan apt.id) 5).1 with _ | _
      · rw [deliver_loop_failure chan apt rest pub disk h hs]
        exact ih pub disk
      · rw [deliver_loop_success chan apt rest pub disk h hs]
        simp only [List.toFinset_cons]
        rw [ih (insert apt.id pub) (.content (insert apt.id pub))]
        ext z
        simp [Finset.mem_union, Finset.mem_insert]

/-- Exactly one snapshot is committed per successful send. -/
lemma deliver_loop_commits_length (chan : String → Nat → ChannelResp) :
    ∀ (apts : List Listing) (pub : Finset String) (disk : StoreFile),
      (deliver_loop chan apts pub disk).commits.length =
        (deliver_loop chan apts pub disk).sent.length := by
  intro apts
  induction apts with
  | nil =>
    intro pub disk
    rfl
  | cons apt rest ih =>
    intro pub disk
    by_cases h : apt.id ∈ pub
    · rw [deliver_loop_skip chan apt rest pub disk h]
      exact ih pub disk
    · rcases hs : (send_apt (chan apt.id) 5).1 with _ | _
      · rw [deliver_loop_failure chan apt rest pub disk h hs]
        exact ih pub disk
      · rw [deliver_loop_success chan apt rest pub disk h hs]
        simp only [List.length_cons]
        rw [ih (insert apt.id pub) (.content (insert apt.id pub))]

/-- The disk is untouched when nothing was committed, and otherwise holds
the final in-memory set (the last committed snapshot). -/
lemma deliver_loop_state (chan : String → Nat → ChannelResp) :
    ∀ (apts : List Listing) (pub : Finset String) (disk : StoreFile),
      ((deliver_loop chan apts pub disk).commits = [] →
        (deliver_loop chan apts pub disk).disk = disk ∧
        (deliver_loop chan apts pub disk).published = pub) ∧
      ((deliver_loop chan apts pub disk).commits ≠ [] →
        (deliver_loop chan apts pub disk).disk =
          StoreFile.content (deliver_loop chan apts pub disk).published) := by
  intro apts
  induction apts with
  | nil =>
    intro pub disk
    refine ⟨fun _ => ⟨rfl, rfl⟩, fun h => absurd rfl h⟩
  | cons apt rest ih =>
    intro pub disk
    by_cases h : apt.id ∈ pub
    · rw [deliver_loop_skip chan apt rest pub disk h]
      exact ih pub disk
    · rcases hs : (send_apt (chan apt.id) 5).1 with _ | _
      · rw [deliver_loop_failure chan apt rest pub disk h hs]
        exact ih pub disk
      · rw [deliver_loop_success chan apt rest pub disk h hs]
        refine ⟨fun hfalse => absurd hfalse (List.cons_ne_nil _ _),
          fun _ => ?_⟩
        show (deliver_loop chan rest (insert apt.id pub)
            (.content (insert apt.id pub))).disk =
          StoreFile.content (deliver_loop chan rest (insert apt.id pub)
            (.content (insert apt.id pub))).published
        obtain ⟨hnil, hcons⟩ :=
          ih (insert apt.id pub) (.content (insert apt.id pub))
        by_cases hc : (deliver_loop chan rest (insert apt.id pub)
            (.content (insert apt.id pub))).commits = []
        · obtain ⟨hd, hpub⟩ := hnil hc
          rw [hd, hpub]
        · exact hcons hc

/-- The loaded set followed by the successive committed snapshots forms a
`⊆`-increasing chain: ids are only ever added. -/
lemma deliver_loop_chain (chan : String → Nat → ChannelResp) :
    ∀ (apts : List Listing) (pub : Finset String) (disk : StoreFile),
      List.Chain' (fun s t => s ⊆ t)
        (pub :: (deliver_loop chan apts pub disk).commits) := by
  intro apts
  induction apts with
  | nil =>
    intro pub disk
    simp [deliver_loop_nil]
  | cons apt rest ih =>
    intro pub disk
    by_cases h : apt.id ∈ pub
    · rw [deliver_loop_skip chan apt rest pub disk h]
      exact ih pub disk
    · rcases hs : (send_apt (chan apt.id) 5).1 with _ | _
      · rw [deliver_loop_failure chan apt rest pub disk h hs]
        exact ih pub disk
      · rw [deliver_loop_success chan apt rest pub disk h hs]
        rw [List.chain'_cons]
        exact ⟨Finset.subset_insert apt.id pub,
          ih (insert apt.id pub) (.content (insert apt.id pub))⟩

/-- Every committed snapshot consists of the loaded set plus successfully
sent ids only. -/
lemma deliver_loop_commits_sub (chan : String → Nat → ChannelResp) :
    ∀ (apts : List Listing) (pub : Finset String) (disk : StoreFile),
      ∀ c ∈ (deliver_loop chan apts pub disk).commits,
        c ⊆ pub ∪ (deliver_loop chan apts pub disk).sent.toFinset := by
  intro apts
  induction apts with
  | nil =>
    intro pub disk c hc
    simp [deliver_loop_nil] at hc
  | cons apt rest ih =>
    intro pub disk c hc
    by_cases h : apt.id ∈ pub
    · rw [deliver_loop_skip chan apt rest pub disk h] at hc ⊢
      exact ih pub disk c hc
    · rcases hs : (send_apt (chan apt.id) 5).1 with _ | _
      · rw [deliver_loop_failure chan apt rest pub disk h hs] at hc ⊢
        exact ih pub disk c hc
      · rw [deliver_loop_success chan apt rest pub disk h hs] at hc ⊢
        simp only [List.toFinset_cons]
        have hsub : insert apt.id pub ∪
            (deliver_loop chan rest (insert apt.id pub)
              (.content (insert apt.id pub))).sent.toFinset ⊆
            pub ∪ insert apt.id (deliver_loop chan rest (insert apt.id pub)
              (.content (insert apt.id pub))).sent.toFinset := by
          intro z hz
          simp only [Finset.mem_union, Finset.mem_insert] at hz ⊢
          tauto
        rcases List.mem_cons.mp hc with hc | hc
        · subst hc
          exact Finset.Subset.trans Finset.subset_union_left hsub
        · exact Finset.Subset.trans (ih (insert apt.id pub)
            (.content (insert apt.id pub)) c hc) hsub

/-- Every successfully sent id was accepted by the channel within the
5-attempt cap. -/
lemma deliver_loop_sent_accept (chan : String → Nat → ChannelResp) :
    ∀ (apts : List Listing) (pub : Finset String) (disk : StoreFile),
      ∀ s ∈ (deliver_loop chan apts pub disk).sent,
        ∃ j, j < 5 ∧ chan s j = ChannelResp.success := by
  intro apts
  induction apts with
  | nil =>
    intro pub disk s hsent
    simp [deliver_loop_nil] at hsent
  | cons apt rest ih =>
    intro pub disk s hsent
    by_cases h : apt.id ∈ pub
    · rw [deliver_loop_skip chan apt rest pub disk h] at hsent
      exact ih pub disk s hsent
    · rcases hs : (send_apt (chan apt.id) 5).1 with _ | _
      · rw [deliver_loop_failure chan apt rest pub disk h hs] at hsent
        exact ih pub disk s hsent
      · rw [deliver_loop_success chan apt rest pub disk h hs] at hsent
        rcases List.mem_cons.mp hsent with hsent | hsent
        · subst hsent
          exact send_apt_accept (chan apt.id) hs
        · exact ih (insert apt.id pub) (.content (insert apt.id pub)) s hsent

/-- With pairwise distinct ids, a send is attempted exactly for the
listings whose id is not in the loaded set, in order. -/
lemma deliver_loop_attempted (chan : String → Nat → ChannelResp) :
    ∀ (apts : List Listing) (pub : Finset String) (disk : StoreFile),
      (apts.map Listing.id).Nodup →
      (deliver_loop chan apts pub disk).attempted =
        (apts.filter (fun a => a.id ∉ pub)).map Listing.id := by
  intro apts
  induction apts with
  | nil =>
    intro pub disk _
    simp [deliver_loop_nil]
  | cons apt rest ih =>
    intro pub disk hnd
    simp only [List.map_cons, List.nodup_cons] at hnd
    obtain ⟨hhd, htl⟩ := hnd
    by_cases h : apt.id ∈ pub
    · have hcond : ¬(decide (apt.id ∉ pub) = true) := by simp [h]
      rw [deliver_loop_skip chan apt rest pub disk h, List.filter_cons,
        if_neg hcond]
      exact ih pub disk htl
    · have hcond : decide (apt.id ∉ pub) = true := by simp [h]
      rcases hs : (send_apt (chan apt.id) 5).1 with _ | _
      · rw [deliver_loop_failure chan apt rest pub disk h hs,
          List.filter_cons, if_pos hcond]
        show apt.id :: (deliver_loop chan rest pub disk).attempted = _
        rw [ih pub disk htl, List.map_cons]
      · rw [deliver_loop_success chan apt rest pub disk h hs,
          List.filter_cons, if_pos hcond]
        show apt.id :: (deliver_loop chan rest (insert apt.id pub)
            (.content (insert apt.id pub))).attempted = _
        have hfilter :
            rest.filter (fun a => decide (a.id ∉ insert apt.id pub)) =
              rest.filter (fun a => decide (a.id ∉ pub)) := by
          apply List.filter_congr
          intro a ha
          have hne : a.id ≠ apt.id := by
            intro he
            exact hhd (he ▸ List.mem_map_of_mem Listing.id ha)
          simp [Finset.mem_insert, hne]
        rw [ih (insert apt.id pub) (.content (insert apt.id pub)) htl,
          hfilter, List.map_cons]

/-- With a channel that always accepts, every attempted send succeeds. -/
lemma deliver_loop_sent_all (chan : String → Nat → ChannelResp)
    (hchan : ∀ s, chan s 0 = ChannelResp.success) :
    ∀ (apts : List Listing) (pub : Finset String) (disk : StoreFile),
      (deliver_loop chan apts pub disk).sent =
        (deliver_loop chan apts pub disk).attempted := by
  intro apts
  induction apts with
  | nil =>
    intro pub disk
    rfl
  | cons apt rest ih =>
    intro pub disk
    by_cases h : apt.id ∈ pub
    · rw [deliver_loop_skip chan apt rest pub disk h]
      exact ih pub disk
    · have hs : (send_apt (chan apt.id) 5).1 = true := by
        rw [send_apt_first_success (chan apt.id) (hchan apt.id)]
      rw [deliver_loop_success chan apt rest pub disk h hs]
      simp only [List.cons.injEq, true_and]
      exact ih (insert apt.id pub) (.content (insert apt.id pub))

/-- Loading the disk left by the delivery loop yields the loaded set plus
the successfully sent ids. -/
lemma deliver_loop_load (chan : String → Nat → ChannelResp)
    (apts : List Listing) (pub : Finset String) (disk : StoreFile)
    (hload : load disk = Except.ok pub) :
    load (deliver_loop chan apts pub disk).disk =
      Except.ok (pub ∪ (deliver_loop chan apts pub disk).sent.toFinset) := by
  obtain ⟨hnil, hcons⟩ := deliver_loop_state chan apts pub disk
  by_cases hc : (deliver_loop chan apts pub disk).commits = []
  · obtain ⟨hd, _⟩ := hnil hc
    have hlen := deliver_loop_commits_length chan apts pub disk
    rw [hc] at hlen
    have hsent : (deliver_loop chan apts pub disk).sent = [] :=
      List.eq_nil_of_length_eq_zero hlen.symm
    rw [hd, hload, hsent]
    simp
  · rw [hcons hc, deliver_loop_published chan apts pub disk]
    rfl

end DeliverLemmas

section CycleLemmas

lemma cycle_corrupt (chan : String → Nat → ChannelResp)
    (crawl : Option (List Listing)) :
    cycle chan crawl StoreFile.corrupt =
      ⟨CycleOutcome.storeError, StoreFile.corrupt, [], [], []⟩ := rfl

lemma cycle_none (chan : String → Nat → ChannelResp) (disk : StoreFile)
    (pub : Finset String) (hload : load disk = Except.ok pub) :
    cycle chan none disk = ⟨CycleOutcome.parserNone, disk, [], [], []⟩ := by
  unfold cycle
  rw [hload]

lemma cycle_noNew (chan : String → Nat → ChannelResp) (disk : StoreFile)
    (pub : Finset String) (hload : load disk = Except.ok pub) :
    cycle chan (some []) disk =
      ⟨CycleOutcome.noNew, disk, [], [], []⟩ := by
  unfold cycle
  rw [hload]

lemma cycle_cons (chan : String → Nat → ChannelResp) (a : Listing)
    (rest : List Listing) (disk : StoreFile) (pub : Finset String)
    (hload : load disk = Except.ok pub) :
    cycle chan (some (a :: rest)) disk =
      ⟨CycleOutcome.ran, (deliver_loop chan (a :: rest) pub disk).disk,
        (deliver_loop chan (a :: rest) pub disk).attempted,
        (deliver_loop chan (a :: rest) pub disk).sent,
        (deliver_loop chan (a :: rest) pub disk).commits⟩ := by
  unfold cycle
  rw [hload]

/-- A cycle attempts a send exactly for the crawled listings whose id is
not in the freshly loaded set, in crawl order. -/
lemma cycle_attempted (chan : String → Nat → ChannelResp)
    (apts : List Listing) (disk : StoreFile) (pub : Finset String)
    (hload : load disk = Except.ok pub)
    (hnd : (apts.map Listing.id).Nodup) :
    (cycle chan (some apts) disk).attempted =
      (apts.filter (fun a => a.id ∉ pub)).map Listing.id := by
  cases apts with
  | nil =>
    rw [cycle_noNew chan disk pub hload]
    simp
  | cons a rest =>
    rw [cycle_cons chan a rest disk pub hload]
    exact deliver_loop_attempted chan (a :: rest) pub disk hnd

/-- With an always-accepting channel, a cycle sends what it attempts. -/
lemma cycle_sent_all (chan : String → Nat → ChannelResp)
    (hchan : ∀ s, chan s 0 = ChannelResp.success)
    (apts : List Listing) (disk : StoreFile) (pub : Finset String)
    (hload : load disk = Except.ok pub) :
    (cycle chan (some apts) disk).sent =
      (cycle chan (some apts) disk).attempted := by
  cases apts with
  | nil =>
    rw [cycle_noNew chan disk pub hload]
  | cons a rest =>
    rw [cycle_cons chan a rest disk pub hload]
    exact deliver_loop_sent_all chan hchan (a :: rest) pub disk

/-- The store a cycle leaves behind loads as the loaded set plus the ids
the cycle successfully sent. -/
lemma cycle_load (chan : String → Nat → ChannelResp)
    (crawl : Option (List Listing)) (disk : StoreFile) (pub : Finset String)
    (hload : load disk = Except.ok pub) :
    load (cycle chan crawl disk).disk =
      Except.ok (pub ∪ (cycle chan crawl disk).sent.toFinset) := by
  cases crawl with
  | none =>
    rw [cycle_none chan disk pub hload]
    simpa using hload
  | some apts =>
    cases apts with
    | nil =>
      rw [cycle_noNew chan disk pub hload]
      simpa using hload
    | cons a rest =>
      rw [cycle_cons chan a rest disk pub hload]
      exact deliver_loop_load chan (a :: rest) pub disk hload

end CycleLemmas

section StepLemmas

lemma send_apt_go_success_step (chan : Nat → ChannelResp) (fuel attempt : Nat)
    (waits : List Nat) (h : chan attempt = ChannelResp.success) :
    send_apt_go chan (fuel + 1) attempt waits = (true, waits) := by
  rw [send_apt_go, h]

lemma send_apt_go_rl_step (chan : Nat → ChannelResp) (fuel attempt : Nat)
    (waits : List Nat) (ra : Nat)
    (h : chan attempt = ChannelResp.rateLimited ra) :
    send_apt_go chan (fuel + 2) attempt waits =
      send_apt_go chan (fuel + 1) (attempt + 1) (waits ++ [ra]) := by
  rw [send_apt_go, h]

lemma send_apt_go_rl_last (chan : Nat → ChannelResp) (attempt : Nat)
    (waits : List Nat) (ra : Nat)
    (h : chan attempt = ChannelResp.rateLimited ra) :
    send_apt_go chan 1 attempt waits = (false, waits) := by
  rw [send_apt_go, h]

/-- Four flood-control answers followed by an acceptance: the send
succeeds after exactly four waits of the hinted duration. -/
lemma send_apt_rl4 (chan : Nat → ChannelResp) (r : Nat)
    (h4 : ∀ i, i < 4 → chan i = ChannelResp.rateLimited r)
    (h5 : chan 4 = ChannelResp.success) :
    send_apt chan 5 = (true, [r, r, r, r]) := by
  have e1 : send_apt_go chan 5 0 [] = send_apt_go chan 4 1 [r] :=
    send_apt_go_rl_step chan 3 0 [] r (h4 0 (by omega))
  have e2 : send_apt_go chan 4 1 [r] = send_apt_go chan 3 2 [r, r] :=
    send_apt_go_rl_step chan 2 1 [r] r (h4 1 (by omega))
  have e3 : send_apt_go chan 3 2 [r, r] = send_apt_go chan 2 3 [r, r, r] :=
    send_apt_go_rl_step chan 1 2 [r, r] r (h4 2 (by omega))
  have e4 : send_apt_go chan 2 3 [r, r, r] =
      send_apt_go chan 1 4 [r, r, r, r] :=
    send_apt_go_rl_step chan 0 3 [r, r, r] r (h4 3 (by omega))
  have e5 : send_apt_go chan 1 4 [r, r, r, r] = (true, [r, r, r, r]) :=
    send_apt_go_success_step chan 0 4 [r, r, r, r] h5
  show send_apt_go chan 5 0 [] = (true, [r, r, r, r])
  rw [e1, e2, e3, e4, e5]

/-- Five consecutive flood-control answers exhaust the attempt cap: the
send fails after four waits (the cap check precedes the fifth sleep). -/
lemma send_apt_rl_cap (chan : Nat → ChannelResp) (r : Nat)
    (h5 : ∀ i, i < 5 → chan i = ChannelResp.rateLimited r) :
    send_apt chan 5 = (false, [r, r, r, r]) := by
  have e1 : send_apt_go chan 5 0 [] = send_apt_go chan 4 1 [r] :=
    send_apt_go_rl_step chan 3 0 [] r (h5 0 (by omega))
  have e2 : send_apt_go chan 4 1 [r] = send_apt_go chan 3 2 [r, r] :=
    send_apt_go_rl_step chan 2 1 [r] r (h5 1 (by omega))
  have e3 : send_apt_go chan 3 2 [r, r] = send_apt_go chan 2 3 [r, r, r] :=
    send_apt_go_rl_step chan 1 2 [r, r] r (h5 2 (by omega))
  have e4 : send_apt_go chan 2 3 [r, r, r] =
      send_apt_go chan 1 4 [r, r, r, r] :=
    send_apt_go_rl_step chan 0 3 [r, r, r] r (h5 3 (by omega))
  have e5 : send_apt_go chan 1 4 [r, r, r, r] = (false, [r, r, r, r]) :=
    send_apt_go_rl_last chan 4 [r, r, r, r] r (h5 4 (by omega))
  show send_apt_go chan 5 0 [] = (false, [r, r, r, r])
  rw [e1, e2, e3, e4, e5]

lemma cycle_err (chan : String → Nat → ChannelResp)
    (crawl : Option (List Listing)) (disk : StoreFile) (e : Unit)
    (hload : load disk = Except.error e) :
    cycle chan crawl disk =
      ⟨CycleOutcome.storeError, disk, [], [], []⟩ := by
  unfold cycle
  rw [hload]

/-- A cycle whose delivery loop never ran leaves the store untouched and
delivers nothing. -/
lemma cycle_no_deliveries (chan : String → Nat → ChannelResp)
    (crawl : Option (List Listing)) (disk : StoreFile)
    (h : (cycle chan crawl disk).outcome ≠ CycleOutcome.ran) :
    (cycle chan crawl disk).sent = [] ∧
    (cycle chan crawl disk).commits = [] ∧
    (cycle chan crawl disk).disk = disk := by
  rcases hl : load disk with e | pub
  · rw [cycle_err chan crawl disk e hl]
    exact ⟨rfl, rfl, rfl⟩
  · cases crawl with
    | none =>
      rw [cycle_none chan disk pub hl]
      exact ⟨rfl, rfl, rfl⟩
    | some apts =>
      cases apts with
      | nil =>
        rw [cycle_noNew chan disk pub hl]
        exact ⟨rfl, rfl, rfl⟩
      | cons a rest =>
        rw [cycle_cons chan a rest disk pub hl] at h
        exact absurd rfl h

lemma scheduler_go_length (chans : Nat → String → Nat → ChannelResp)
    (crawls : Nat → Option (List Listing)) :
    ∀ (fuel i : Nat) (disk : StoreFile),
      (scheduler_go chans crawls i fuel disk).2.length = fuel := by
  intro fuel
  induction fuel with
  | zero =>
    intro i disk
    rfl
  | succ fuel ih =>
    intro i disk
    rw [scheduler_go]
    simp only [List.length_cons]
    rw [ih (i + 1) (cycle (chans i) (crawls i) disk).disk]

lemma scheduler_go_wait (chans : Nat → String → Nat → ChannelResp)
    (crawls : Nat → Option (List Listing)) :
    ∀ (fuel i : Nat) (disk : StoreFile) (e : CycleResult × Nat),
      e ∈ (scheduler_go chans crawls i fuel disk).2 →
      e.2 = POLL_INTERVAL := by
  intro fuel
  induction fuel with
  | zero =>
    intro i disk e he
    simp [scheduler_go] at he
  | succ fuel ih =>
    intro i disk e he
    rw [scheduler_go] at he
    rcases List.mem_cons.mp he with he | he
    · rw [he]
    · exact ih (i + 1) (cycle (chans i) (crawls i) disk).disk e he

end StepLemmas

/-- C7: if the persisted published-ids snapshot file exists but cannot be
parsed, loading it fails and the cycle performs no deliveries and no
commits, leaving the file as it was; an absent snapshot file loads as the
empty set; a corrupt store is never silently treated as an empty one. -/
theorem store_corrupt_not_empty :
    load StoreFile.corrupt = Except.error () ∧
    (∀ (chan : String → Nat → ChannelResp) (crawl : Option (List Listing)),
      cycle chan crawl StoreFile.corrupt =
        ⟨CycleOutcome.storeError, StoreFile.corrupt, [], [], []⟩) ∧
    load StoreFile.absent = Except.ok ∅ :=
  ⟨rfl, fun _ _ => rfl, rfl⟩

/-- C2: if the renderer/parser signals a hard failure on a page `p` the
crawl actually reaches (every earlier page yielded records), the whole
crawl returns the hard-failure result `none`, carrying no listings; and a
cycle receiving that result performs no delivery, commits nothing, and
leaves the store untouched. -/
theorem hard_failure_aborts_crawl
    (fetchPage : Nat → Option (List Listing)) (max_pages p : Nat)
    (chan : String → Nat → ChannelResp) (disk : StoreFile)
    (hp : fetchPage p = none) (hp1 : 1 ≤ p) (hpm : p ≤ max_pages)
    (hprev : ∀ q, 1 ≤ q → q < p → ∃ a as, fetchPage q = some (a :: as)) :
    (parse_all_pages fetchPage max_pages).2 = none ∧
    (cycle chan none disk).attempted = [] ∧
    (cycle chan none disk).sent = [] ∧
    (cycle chan none disk).commits = [] ∧
    (cycle chan none disk).disk = disk := by
  have habort : (parse_all_pages fetchPage max_pages).2 = none :=
    crawlFrom_hard fetchPage p hp max_pages 1 [] [] hp1 (by omega) hprev
  have hcyc : (cycle chan none disk).attempted = [] ∧
      (cycle chan none disk).sent = [] ∧
      (cycle chan none disk).commits = [] ∧
      (cycle chan none disk).disk = disk := by
    rcases hl : load disk with e | pub
    · rw [cycle_err chan none disk e hl]
      exact ⟨rfl, rfl, rfl, rfl⟩
    · rw [cycle_none chan disk pub hl]
      exact ⟨rfl, rfl, rfl, rfl⟩
  exact ⟨habort, hcyc⟩

/-- C2 witness: access denied on page 2 of a 3-page crawl with a valid
page 1 aborts the crawl, and the receiving cycle does nothing. -/
theorem hard_failure_aborts_crawl_witness :
    (parse_all_pages fetchHard 3).2 = none ∧
    (cycle chanOK none (StoreFile.content ∅)).attempted = [] ∧
    (cycle chanOK none (StoreFile.content ∅)).sent = [] ∧
    (cycle chanOK none (StoreFile.content ∅)).commits = [] ∧
    (cycle chanOK none (StoreFile.content ∅)).disk = StoreFile.content ∅ :=
  hard_failure_aborts_crawl fetchHard 3 2 chanOK (StoreFile.content ∅) rfl
    (by omega) (by omega)
    (fun q h1 h2 => by
      have hq : q = 1 := by omega
      subst hq
      exact ⟨mkListing "a", [], rfl⟩)

/-- C3: the crawl fetches pages 1, 2, ... in increasing order and at most
`max_pages` of them; when the pages before `p` all yield records and page
`p` yields zero records, it fetches exactly pages 1..p — no page after
the first empty one — and returns the deduplicated listings collected
from the earlier pages. -/
theorem pagination_stop_conditions
    (fetchPage : Nat → Option (List Listing)) (max_pages p : Nat)
    (hp : fetchPage p = some []) (hp1 : 1 ≤ p) (hpm : p ≤ max_pages)
    (hprev : ∀ q, 1 ≤ q → q < p → ∃ a as, fetchPage q = some (a :: as)) :
    (∀ (f : Nat → Option (List Listing)) (m : Nat),
      ∃ k, k ≤ m ∧ (parse_all_pages f m).1 = List.range' 1 k) ∧
    (parse_all_pages fetchPage max_pages).1 = List.range' 1 p ∧
    (parse_all_pages fetchPage max_pages).2 =
      some (firstSeenDedup ((List.range' 1 (p - 1)).flatMap
        (pageContent fetchPage))) := by
  have hstop := crawlFrom_stop fetchPage p hp max_pages 1 [] []
    hp1 (by omega) hprev
  have e : p + 1 - 1 = p := by omega
  rw [e] at hstop
  refine ⟨fun f m => crawlFrom_trace f m 1 [] [], ?_, ?_⟩
  · show (crawlFrom fetchPage 1 max_pages [] []).1 = List.range' 1 p
    rw [hstop]
  · show (crawlFrom fetchPage 1 max_pages [] []).2 = _
    rw [hstop]
    rfl

/-- C3 witness: 10 listings on page 1, zero on page 2, `max_pages = 5`:
the crawl stops after page 2 and returns exactly the 10 page-1
listings. -/
theorem pagination_stop_conditions_witness :
    (∃ k, k ≤ 7 ∧ (parse_all_pages fetchStop 7).1 = List.range' 1 k) ∧
    (parse_all_pages fetchStop 5).1 = List.range' 1 2 ∧
    (parse_all_pages fetchStop 5).2 =
      some (firstSeenDedup ((List.range' 1 1).flatMap
        (pageContent fetchStop))) ∧
    firstSeenDedup ((List.range' 1 1).flatMap (pageContent fetchStop)) =
      tenListings := by
  have h := pagination_stop_conditions fetchStop 5 2 rfl (by omega) (by omega)
    (fun q h1 h2 => by
      have hq : q = 1 := by omega
      subst hq
      exact ⟨mkListing "a0", [mkListing "a1", mkListing "a2", mkListing "a3",
        mkListing "a4", mkListing "a5", mkListing "a6", mkListing "a7",
        mkListing "a8", mkListing "a9"], rfl⟩)
  exact ⟨h.1 fetchStop 7, h.2.1, h.2.2, by decide⟩

/-- C4: a successful crawl yields each id at most once, as a sublist (in
first-encounter order) of everything the fetched pages produced; every
kept element is the first record with its id, and no id encountered on
any fetched page is lost. -/
theorem crawl_dedup_first_seen
    (fetchPage : Nat → Option (List Listing)) (max_pages : Nat)
    (tr : List Nat) (L : List Listing)
    (h : parse_all_pages fetchPage max_pages = (tr, some L)) :
    (L.map Listing.id).Nodup ∧
    L.Sublist (tr.flatMap (pageContent fetchPage)) ∧
    (∀ x ∈ L, (tr.flatMap (pageContent fetchPage)).find?
      (fun z => z.id == x.id) = some x) ∧
    (∀ y ∈ tr.flatMap (pageContent fetchPage), y.id ∈ L.map Listing.id) := by
  have hb := crawlFrom_some fetchPage max_pages 1 [] [] tr L h
  obtain ⟨ys, h1, h2, h3, h4, h5, h6, h7⟩ :=
    dedupFold_spec (tr.flatMap (pageContent fetchPage)) [] []
  have hL : L = ys := by rw [hb, h1]; simp
  subst hL
  refine ⟨h5, h3, h7, ?_⟩
  intro y hy
  rcases h6 y hy with hmem | hmem
  · simp at hmem
  · exact hmem

/-- C4 witness: with listing `b` on both pages 1 and 2, the crawl keeps
its first occurrence only and preserves first-seen order. -/
theorem crawl_dedup_first_seen_witness :
    ((([mkListing "a", mkListing "b", mkListing "c"] : List Listing).map
      Listing.id).Nodup) ∧
    ([mkListing "a", mkListing "b", mkListing "c"] : List Listing).Sublist
      (([1, 2] : List Nat).flatMap (pageContent fetchDup)) ∧
    (∀ x ∈ ([mkListing "a", mkListing "b", mkListing "c"] : List Listing),
      (([1, 2] : List Nat).flatMap (pageContent fetchDup)).find?
        (fun z => z.id == x.id) = some x) ∧
    (∀ y ∈ ([1, 2] : List Nat).flatMap (pageContent fetchDup),
      y.id ∈ ([mkListing "a", mkListing "b", mkListing "c"] :
        List Listing).map Listing.id) :=
  crawl_dedup_first_seen fetchDup 2 [1, 2]
    [mkListing "a", mkListing "b", mkListing "c"] (by decide)

/-- C5: per listing, a rate-limited answer makes the sender sleep the
hinted duration and retry, up to 5 attempts in total (only the first 5
channel answers are ever consulted); four rate-limited answers followed
by an acceptance give success after exactly four hinted waits, and the
cycle commits the id; six consecutive rate-limited answers exceed the cap,
the listing is skipped and its id is absent from the committed store. -/
theorem rate_limit_bounded_retry :
    (∀ (chan : Nat → ChannelResp) (r : Nat),
      (∀ i, i < 4 → chan i = ChannelResp.rateLimited r) →
      chan 4 = ChannelResp.success →
      send_apt chan 5 = (true, [r, r, r, r])) ∧
    (∀ (chan : Nat → ChannelResp) (r : Nat),
      (∀ i, i < 6 → chan i = ChannelResp.rateLimited r) →
      send_apt chan 5 = (false, [r, r, r, r])) ∧
    (∀ (chan chan' : Nat → ChannelResp),
      (∀ i, i < 5 → chan i = chan' i) →
      send_apt chan 5 = send_apt chan' 5) ∧
    (∀ (chan : String → Nat → ChannelResp) (apt : Listing)
      (pub : Finset String) (disk : StoreFile) (r : Nat),
      load disk = Except.ok pub → apt.id ∉ pub →
      (∀ i, i < 4 → chan apt.id i = ChannelResp.rateLimited r) →
      chan apt.id 4 = ChannelResp.success →
      (cycle chan (some [apt]) disk).sent = [apt.id] ∧
      (cycle chan (some [apt]) disk).disk =
        StoreFile.content (insert apt.id pub)) ∧
    (∀ (chan : String → Nat → ChannelResp) (apt : Listing)
      (pub : Finset String) (disk : StoreFile) (r : Nat),
      load disk = Except.ok pub → apt.id ∉ pub →
      (∀ i, i < 6 → chan apt.id i = ChannelResp.rateLimited r) →
      (cycle chan (some [apt]) disk).sent = [] ∧
      (cycle chan (some [apt]) disk).commits = [] ∧
      (cycle chan (some [apt]) disk).disk = disk) := by
  refine ⟨send_apt_rl4, ?_, ?_, ?_, ?_⟩
  · intro chan r h6
    exact send_apt_rl_cap chan r (fun i hi => h6 i (by omega))
  · intro chan chan' hagree
    exact send_apt_go_congr chan chan' 5 0 []
      (fun i h1 h2 => hagree i (by omega))
  · intro chan apt pub disk r hload hpub h4 h5
    have hsend : send_apt (chan apt.id) 5 = (true, [r, r, r, r]) :=
      send_apt_rl4 (chan apt.id) r h4 h5
    rw [cycle_cons chan apt [] disk pub hload,
      deliver_loop_success chan apt [] pub disk hpub (by rw [hsend])]
    simp [deliver_loop_nil]
  · intro chan apt pub disk r hload hpub h6
    have hsend : send_apt (chan apt.id) 5 = (false, [r, r, r, r]) :=
      send_apt_rl_cap (chan apt.id) r (fun i hi => h6 i (by omega))
    rw [cycle_cons chan apt [] disk pub hload,
      deliver_loop_failure chan apt [] pub disk hpub (by rw [hsend])]
    simp [deliver_loop_nil]

/-- C5 witness: the concrete channels of the spec's test sketch (hint 2,
four rate-limited answers then success; always rate-limited), on a
single new listing over an existing empty store. -/
theorem rate_limit_bounded_retry_witness :
    send_apt chanRL4 5 = (true, [2, 2, 2, 2]) ∧
    send_apt chanRL 5 = (false, [2, 2, 2, 2]) ∧
    send_apt chanRL4 5 = send_apt chanRL4 5 ∧
    ((cycle chanFRL4 (some [mkListing "a"]) (StoreFile.content ∅)).sent =
      [(mkListing "a").id] ∧
      (cycle chanFRL4 (some [mkListing "a"]) (StoreFile.content ∅)).disk =
        StoreFile.content (insert (mkListing "a").id ∅)) ∧
    ((cycle chanFRL (some [mkListing "a"]) (StoreFile.content ∅)).sent = [] ∧
      (cycle chanFRL (some [mkListing "a"]) (StoreFile.content ∅)).commits =
        [] ∧
      (cycle chanFRL (some [mkListing "a"]) (StoreFile.content ∅)).disk =
        StoreFile.content ∅) :=
  ⟨rate_limit_bounded_retry.1 chanRL4 2 (by decide) rfl,
    rate_limit_bounded_retry.2.1 chanRL 2 (by decide),
    rate_limit_bounded_retry.2.2.1 chanRL4 chanRL4 (fun i _ => rfl),
    rate_limit_bounded_retry.2.2.2.1 chanFRL4 (mkListing "a") ∅
      (StoreFile.content ∅) 2 rfl (by decide) (by decide) rfl,
    rate_limit_bounded_retry.2.2.2.2 chanFRL (mkListing "a") ∅
      (StoreFile.content ∅) 2 rfl (by decide) (by decide)⟩

/-- C1: with all sends accepted, interrupting the delivery loop after the
first `k` of the new listings were sent leaves on disk exactly the loaded
set plus the ids of those `k` listings (each success is committed before
the next listing is attempted), and a restarted cycle attempts and sends
exactly the remaining `n - k` listings in the original order. -/
theorem crash_consistent_commit
    (chan : String → Nat → ChannelResp) (apts : List Listing)
    (pub : Finset String) (disk : StoreFile) (k : Nat)
    (hnd : (apts.map Listing.id).Nodup)
    (hnew : ∀ a ∈ apts, a.id ∉ pub)
    (hchan : ∀ s i, chan s i = ChannelResp.success)
    (hload : load disk = Except.ok pub)
    (hk : k ≤ apts.length) :
    load (deliver_loop chan (apts.take k) pub disk).disk =
      Except.ok (pub ∪ ((apts.take k).map Listing.id).toFinset) ∧
    (cycle chan (some apts)
      (deliver_loop chan (apts.take k) pub disk).disk).attempted =
      (apts.drop k).map Listing.id ∧
    (cycle chan (some apts)
      (deliver_loop chan (apts.take k) pub disk).disk).sent =
      (apts.drop k).map Listing.id := by
  have hchan0 : ∀ s, chan s 0 = ChannelResp.success := fun s => hchan s 0
  have hndk : ((apts.take k).map Listing.id).Nodup := by
    rw [List.map_take]
    exact ((apts.map Listing.id).take_sublist k).nodup hnd
  have hattk : (deliver_loop chan (apts.take k) pub disk).attempted =
      ((apts.take k).filter (fun a => a.id ∉ pub)).map Listing.id :=
    deliver_loop_attempted chan (apts.take k) pub disk hndk
  have hfilterk : (apts.take k).filter (fun a => a.id ∉ pub) = apts.take k := by
    rw [List.filter_eq_self]
    intro a ha
    simp [hnew a (List.take_subset k apts ha)]
  have hsentk : (deliver_loop chan (apts.take k) pub disk).sent =
      (apts.take k).map Listing.id := by
    rw [deliver_loop_sent_all chan hchan0 (apts.take k) pub disk, hattk,
      hfilterk]
  have hload2 : load (deliver_loop chan (apts.take k) pub disk).disk =
      Except.ok (pub ∪ ((apts.take k).map Listing.id).toFinset) := by
    rw [deliver_loop_load chan (apts.take k) pub disk hload, hsentk]
  have hdisj : ∀ a ∈ apts.drop k, a.id ∉ (apts.take k).map Listing.id := by
    intro a ha hmem
    have hsplit : apts.map Listing.id =
        (apts.take k).map Listing.id ++ (apts.drop k).map Listing.id := by
      rw [← List.map_append, List.take_append_drop]
    rw [hsplit] at hnd
    exact (List.nodup_append.mp hnd).2.2 hmem
      (List.mem_map_of_mem Listing.id ha)
  have hfilter2 : apts.filter
      (fun a => a.id ∉ pub ∪ ((apts.take k).map Listing.id).toFinset) =
      apts.drop k := by
    have h1 : (apts.take k).filter
        (fun a => a.id ∉ pub ∪ ((apts.take k).map Listing.id).toFinset) =
        [] := by
      rw [List.filter_eq_nil_iff]
      intro a ha
      have hmem : a.id ∈ List.take k (List.map Listing.id apts) := by
        rw [← List.map_take]
        exact List.mem_map_of_mem Listing.id ha
      simp [Finset.mem_union, hmem]
    have h2 : (apts.drop k).filter
        (fun a => a.id ∉ pub ∪ ((apts.take k).map Listing.id).toFinset) =
        apts.drop k := by
      rw [List.filter_eq_self]
      intro a ha
      have hnp : a.id ∉ pub := hnew a (List.drop_subset k apts ha)
      have hnt : a.id ∉ List.take k (List.map Listing.id apts) := by
        rw [← List.map_take]
        exact hdisj a ha
      simp [Finset.mem_union, hnp, hnt]
    have hsplit2 : apts.filter
        (fun a => a.id ∉ pub ∪ ((apts.take k).map Listing.id).toFinset) =
        (apts.take k ++ apts.drop k).filter
          (fun a => a.id ∉ pub ∪ ((apts.take k).map Listing.id).toFinset) := by
      rw [List.take_append_drop]
    rw [hsplit2, List.filter_append, h1, h2, List.nil_append]
  have hatt2 : (cycle chan (some apts)
      (deliver_loop chan (apts.take k) pub disk).disk).attempted =
      (apts.drop k).map Listing.id := by
    rw [cycle_attempted chan apts (deliver_loop chan (apts.take k) pub
      disk).disk (pub ∪ ((apts.take k).map Listing.id).toFinset) hload2 hnd,
      hfilter2]
  refine ⟨hload2, hatt2, ?_⟩
  rw [cycle_sent_all chan hchan0 apts (deliver_loop chan (apts.take k) pub
    disk).disk (pub ∪ ((apts.take k).map Listing.id).toFinset) hload2]
  exact hatt2

/-- C1 witness: two new listings over an existing empty store,
interrupted after the first commit: the disk holds exactly `{a}` and the
restarted cycle delivers exactly `b`. -/
theorem crash_consistent_commit_witness :
    load (deliver_loop chanOK ([mkListing "a", mkListing "b"].take 1) ∅
        (StoreFile.content ∅)).disk =
      Except.ok (∅ ∪ (([mkListing "a", mkListing "b"].take 1).map
        Listing.id).toFinset) ∧
    (cycle chanOK (some [mkListing "a", mkListing "b"])
        (deliver_loop chanOK ([mkListing "a", mkListing "b"].take 1) ∅
          (StoreFile.content ∅)).disk).attempted =
      ([mkListing "a", mkListing "b"].drop 1).map Listing.id ∧
    (cycle chanOK (some [mkListing "a", mkListing "b"])
        (deliver_loop chanOK ([mkListing "a", mkListing "b"].take 1) ∅
          (StoreFile.content ∅)).disk).sent =
      ([mkListing "a", mkListing "b"].drop 1).map Listing.id :=
  crash_consistent_commit chanOK [mkListing "a", mkListing "b"] ∅
    (StoreFile.content ∅) 1 (by decide) (by decide) (fun _ _ => rfl) rfl
    (by decide)

/-- C6: delivery is attempted exactly for the crawled listings whose id
is not in the freshly loaded delivered set, in crawl order; hence a
second run of the sync-and-deliver step with the same crawl result, all
first-run deliveries successful, and no external state change attempts
and sends nothing. -/
theorem idempotent_sync
    (chan : String → Nat → ChannelResp) (apts : List Listing)
    (pub : Finset String) (disk : StoreFile)
    (hnd : (apts.map Listing.id).Nodup)
    (hload : load disk = Except.ok pub) :
    (∀ chan' : String → Nat → ChannelResp,
      (cycle chan' (some apts) disk).attempted =
        (apts.filter (fun a => a.id ∉ pub)).map Listing.id) ∧
    ((∀ s i, chan s i = ChannelResp.success) →
      (cycle chan (some apts) (cycle chan (some apts) disk).disk).attempted
        = [] ∧
      (cycle chan (some apts) (cycle chan (some apts) disk).disk).sent =
        []) := by
  refine ⟨fun chan' => cycle_attempted chan' apts disk pub hload hnd, ?_⟩
  intro hchan
  have hchan0 : ∀ s, chan s 0 = ChannelResp.success := fun s => hchan s 0
  have hload2 := cycle_load chan (some apts) disk pub hload
  have hatt2 := cycle_attempted chan apts (cycle chan (some apts) disk).disk
    (pub ∪ (cycle chan (some apts) disk).sent.toFinset) hload2 hnd
  have hfilter : apts.filter
      (fun a => a.id ∉ pub ∪ (cycle chan (some apts) disk).sent.toFinset) =
      [] := by
    rw [List.filter_eq_nil_iff]
    intro a ha
    by_cases hp : a.id ∈ pub
    · simp [Finset.mem_union, hp]
    · have hsent : (cycle chan (some apts) disk).sent =
          (apts.filter (fun x => x.id ∉ pub)).map Listing.id := by
        rw [cycle_sent_all chan hchan0 apts disk pub hload,
          cycle_attempted chan apts disk pub hload hnd]
      have hmem : a.id ∈ (cycle chan (some apts) disk).sent := by
        rw [hsent]
        exact List.mem_map_of_mem Listing.id
          (List.mem_filter.mpr ⟨ha, by simp [hp]⟩)
      have hfin : a.id ∈ (cycle chan (some apts) disk).sent.toFinset :=
        List.mem_toFinset.mpr hmem
      simp [Finset.mem_union, hfin]
  have hatt0 : (cycle chan (some apts)
      (cycle chan (some apts) disk).disk).attempted = [] := by
    rw [hatt2, hfilter]
    rfl
  refine ⟨hatt0, ?_⟩
  rw [cycle_sent_all chan hchan0 apts (cycle chan (some apts) disk).disk
    (pub ∪ (cycle chan (some apts) disk).sent.toFinset) hload2, hatt0]

/-- C6 witness: one new listing over an existing empty store; the first
run attempts it, the second run attempts and sends nothing. -/
theorem idempotent_sync_witness :
    (cycle chanOK (some [mkListing "a"]) (StoreFile.content ∅)).attempted =
      (([mkListing "a"] : List Listing).filter
        (fun a => a.id ∉ (∅ : Finset String))).map Listing.id ∧
    (cycle chanOK (some [mkListing "a"])
      (cycle chanOK (some [mkListing "a"])
        (StoreFile.content ∅)).disk).attempted = [] ∧
    (cycle chanOK (some [mkListing "a"])
      (cycle chanOK (some [mkListing "a"])
        (StoreFile.content ∅)).disk).sent = [] := by
  have h := idempotent_sync chanOK [mkListing "a"] ∅ (StoreFile.content ∅)
    (by decide) rfl
  exact ⟨h.1 chanOK, (h.2 (fun _ _ => rfl)).1, (h.2 (fun _ _ => rfl)).2⟩

/-- C8: the loaded set followed by the cycle's successive commits is a
`⊆`-increasing chain (ids are only added, never removed); every id in any
committed snapshot is either a previously loaded id or one whose send the
channel accepted within the attempt cap; and the scheduler starts every
cycle from the disk left by the previous cycle, reloading it rather than
carrying over an in-memory copy. -/
theorem monotone_published_state
    (chan : String → Nat → ChannelResp) (crawl : Option (List Listing))
    (disk : StoreFile) (pub : Finset String)
    (hload : load disk = Except.ok pub) :
    List.Chain' (fun s t => s ⊆ t)
      (pub :: (cycle chan crawl disk).commits) ∧
    (∀ c ∈ (cycle chan crawl disk).commits,
      c ⊆ pub ∪ (cycle chan crawl disk).sent.toFinset) ∧
    (∀ s ∈ (cycle chan crawl disk).sent,
      ∃ j, j < 5 ∧ chan s j = ChannelResp.success) ∧
    (∀ (chans : Nat → String → Nat → ChannelResp)
      (crawls : Nat → Option (List Listing)) (i fuel : Nat)
      (d : StoreFile),
      scheduler_go chans crawls i (fuel + 1) d =
        ((scheduler_go chans crawls (i + 1) fuel
          (cycle (chans i) (crawls i) d).disk).1,
          (cycle (chans i) (crawls i) d, POLL_INTERVAL) ::
            (scheduler_go chans crawls (i + 1) fuel
              (cycle (chans i) (crawls i) d).disk).2)) := by
  have h123 : List.Chain' (fun s t => s ⊆ t)
      (pub :: (cycle chan crawl disk).commits) ∧
      (∀ c ∈ (cycle chan crawl disk).commits,
        c ⊆ pub ∪ (cycle chan crawl disk).sent.toFinset) ∧
      (∀ s ∈ (cycle chan crawl disk).sent,
        ∃ j, j < 5 ∧ chan s j = ChannelResp.success) := by
    rcases crawl with _ | apts
    · rw [cycle_none chan disk pub hload]
      exact ⟨List.chain'_singleton pub,
        fun c hc => absurd hc (List.not_mem_nil c),
        fun s hs => absurd hs (List.not_mem_nil s)⟩
    · rcases apts with _ | ⟨a, rest⟩
      · rw [cycle_noNew chan disk pub hload]
        exact ⟨List.chain'_singleton pub,
          fun c hc => absurd hc (List.not_mem_nil c),
          fun s hs => absurd hs (List.not_mem_nil s)⟩
      · rw [cycle_cons chan a rest disk pub hload]
        exact ⟨deliver_loop_chain chan (a :: rest) pub disk,
          deliver_loop_commits_sub chan (a :: rest) pub disk,
          deliver_loop_sent_accept chan (a :: rest) pub disk⟩
  exact ⟨h123.1, h123.2.1, h123.2.2, fun chans crawls i fuel d => rfl⟩

/-- C8 witness: one accepted listing over an existing empty store, and
one concrete scheduler unfolding step. -/
theorem monotone_published_state_witness :
    List.Chain' (fun s t => s ⊆ t)
      (∅ :: (cycle chanOK (some [mkListing "a"])
        (StoreFile.content ∅)).commits) ∧
    insert "a" ∅ ⊆ ∅ ∪ (cycle chanOK (some [mkListing "a"])
      (StoreFile.content ∅)).sent.toFinset ∧
    (∃ j, j < 5 ∧ chanOK "a" j = ChannelResp.success) ∧
    scheduler_go chansOK crawlsNone 0 1 StoreFile.corrupt =
      ((scheduler_go chansOK crawlsNone 1 0
        (cycle (chansOK 0) (crawlsNone 0) StoreFile.corrupt).disk).1,
        (cycle (chansOK 0) (crawlsNone 0) StoreFile.corrupt,
          POLL_INTERVAL) ::
          (scheduler_go chansOK crawlsNone 1 0
            (cycle (chansOK 0) (crawlsNone 0) StoreFile.corrupt).disk).2) := by
  have h := monotone_published_state chanOK (some [mkListing "a"])
    (StoreFile.content ∅) ∅ rfl
  exact ⟨h.1, h.2.1 (insert "a" ∅) (by decide), h.2.2.1 "a" (by decide),
    h.2.2.2 chansOK crawlsNone 0 0 StoreFile.corrupt⟩

/-- C9 counterexample: a full cycle that accesses (loads) the absent
published-state file completes with the file still absent — the
published-state file is not created with default contents on first
access, contradicting the claim. -/
theorem published_state_not_created_on_access :
    (cycle chanOK (some []) StoreFile.absent).disk = StoreFile.absent := rfl

/-- C9 (amended): the SearchConfig file is created with default contents
on first access while absent; the PublishedState file loads as the empty
set while absent and is only created by the first commit following an
accepted send; neither file is ever deleted by the core. -/
theorem durable_files_lifecycle :
    load_config ConfigFile.absent =
      (defaultSearchConfig, ConfigFile.present defaultSearchConfig) ∧
    (∀ cf : ConfigFile, (load_config cf).2 ≠ ConfigFile.absent) ∧
    load StoreFile.absent = Except.ok ∅ ∧
    (∀ (chan : String → Nat → ChannelResp) (crawl : Option (List Listing))
      (disk : StoreFile),
      (cycle chan crawl disk).disk = StoreFile.absent →
        disk = StoreFile.absent) ∧
    (∀ (chan : String → Nat → ChannelResp) (apt : Listing),
      (send_apt (chan apt.id) 5).1 = true →
      (cycle chan (some [apt]) StoreFile.absent).disk =
        StoreFile.content (insert apt.id ∅)) := by
  refine ⟨rfl, ?_, rfl, ?_, ?_⟩
  · intro cf
    cases cf with
    | absent => simp [load_config]
    | present c => simp [load_config]
  · intro chan crawl disk
    cases disk with
    | absent => intro _; rfl
    | corrupt =>
      intro h
      rw [cycle_corrupt chan crawl] at h
      simp at h
    | content ids =>
      intro h
      have hl : load (StoreFile.content ids) = Except.ok ids := rfl
      rcases crawl with _ | apts
      · rw [cycle_none chan (StoreFile.content ids) ids hl] at h
        simp at h
      · rcases apts with _ | ⟨a, rest⟩
        · rw [cycle_noNew chan (StoreFile.content ids) ids hl] at h
          simp at h
        · rw [cycle_cons chan a rest (StoreFile.content ids) ids hl] at h
          obtain ⟨hnil, hcons⟩ :=
            deliver_loop_state chan (a :: rest) ids (StoreFile.content ids)
          by_cases hc : (deliver_loop chan (a :: rest) ids
              (StoreFile.content ids)).commits = []
          · rw [(hnil hc).1] at h
            simp at h
          · rw [hcons hc] at h
            simp at h
  · intro chan apt hs
    have hl : load StoreFile.absent = Except.ok ∅ := rfl
    rw [cycle_cons chan apt [] StoreFile.absent ∅ hl,
      deliver_loop_success chan apt [] ∅ StoreFile.absent (by simp) hs]
    simp [deliver_loop_nil]

/-- C9 (amended) witness: an absent store stays absent across a cycle
that loads it, and is created by the first accepted send; the config file
is created with defaults when first read while absent. -/
theorem durable_files_lifecycle_witness :
    StoreFile.absent = StoreFile.absent ∧
    (cycle chanOK (some [mkListing "a"]) StoreFile.absent).disk =
      StoreFile.content (insert (mkListing "a").id ∅) ∧
    load_config ConfigFile.absent =
      (defaultSearchConfig, ConfigFile.present defaultSearchConfig) :=
  ⟨durable_files_lifecycle.2.2.2.1 chanOK none StoreFile.absent rfl,
    durable_files_lifecycle.2.2.2.2 chanOK (mkListing "a") rfl,
    durable_files_lifecycle.1⟩

/-- C10: the scheduler loop runs every cycle to completion — the trace of
`n` scheduled cycles always has length `n`, whatever errors the cycles
hit; every cycle is followed by a wait of the full poll interval,
recorded after the cycle completes; and a cycle whose delivery loop never
ran (store load failure or crawl hard failure or no listings) sends
nothing, commits nothing and leaves the store unchanged. -/
theorem scheduler_containment
    (chans : Nat → String → Nat → ChannelResp)
    (crawls : Nat → Option (List Listing)) :
    (∀ (n : Nat) (disk : StoreFile),
      (scheduler_run chans crawls n disk).2.length = n) ∧
    (∀ (n : Nat) (disk : StoreFile) (e : CycleResult × Nat),
      e ∈ (scheduler_run chans crawls n disk).2 → e.2 = POLL_INTERVAL) ∧
    (∀ (chan : String → Nat → ChannelResp) (crawl : Option (List Listing))
      (disk : StoreFile),
      (cycle chan crawl disk).outcome ≠ CycleOutcome.ran →
      (cycle chan crawl disk).sent = [] ∧
      (cycle chan crawl disk).commits = [] ∧
      (cycle chan crawl disk).disk = disk) :=
  ⟨fun n disk => scheduler_go_length chans crawls n 0 disk,
    fun n disk e he => scheduler_go_wait chans crawls n 0 disk e he,
    cycle_no_deliveries⟩

/-- C10 witness: two cycles over a corrupt store with a failing crawl
still both run, each followed by the full poll interval, and the failing
cycle delivers nothing. -/
theorem scheduler_containment_witness :
    (scheduler_run chansOK crawlsNone 2 StoreFile.corrupt).2.length = 2 ∧
    ((⟨CycleOutcome.storeError, StoreFile.corrupt, [], [], []⟩ :
      CycleResult), (3600 : Nat)).2 = POLL_INTERVAL ∧
    (cycle chanOK none StoreFile.corrupt).sent = [] ∧
    (cycle chanOK none StoreFile.corrupt).commits = [] ∧
    (cycle chanOK none StoreFile.corrupt).disk = StoreFile.corrupt := by
  have h := scheduler_containment chansOK crawlsNone
  exact ⟨h.1 2 StoreFile.corrupt,
    h.2.1 2 StoreFile.corrupt
      (⟨CycleOutcome.storeError, StoreFile.corrupt, [], [], []⟩, 3600)
      (by decide),
    h.2.2 chanOK none StoreFile.corrupt (by decide)⟩

end FlatSeeker
